import Mathlib

/-!
# HerbCalc quantitative engine — verification development

A shallow embedding in Lean 4 of the quantitative core of the HerbCalc
repository (`src/core/units.py`, `src/core/solvents.py`,
`src/core/formulation.py`), together with proofs of the specified
properties.

Modelling conventions:
* Python `float` values are modelled as exact rationals (`ℚ`); properties
  stated "up to floating-point rounding" hold exactly in this model.
* Python functions that can raise are modelled in `Except HerbErr`;
  each distinct `raise` site of the source gets its own error constructor.
* Division whose divisor is an input-derived value that can actually be
  zero at runtime (Python would raise `ZeroDivisionError`) is modelled by
  the fallible `fdiv`; division by values that the surrounding control
  flow proves nonzero is plain rational division.
* The static JSON data files (unit tables, density table) are not part of
  the embedded sources; functions are parametrised by that data, and the
  spec-stated invariants of the data (`to_base > 0`, distinct density
  sample points) appear as hypotheses.
-/

namespace HerbCalc

/-- Errors raised by the engine.  Python raises `ValueError` (with distinct
messages) at each of these sites, and `ZeroDivisionError` for a zero float
divisor; each `raise` site is a distinct constructor here. -/
inductive HerbErr where
  /-- `convert`: a unit name does not resolve in the registry. -/
  | unknownUnit (name : String)
  /-- `convert`: the two units have different `unit_type`s. -/
  | incompatibleDimension
  /-- `lookup_ethanol_density`: percentage outside [0, 100]. -/
  | outOfRange
  /-- `dry_equivalent` / `tincture_from_dose`: `ratio <= 0`. -/
  | invalidRatio
  /-- `pearson_square`: `source_concentration <= 0`. -/
  | nonPositiveSource
  /-- `pearson_square`: `target_concentration > source_concentration`. -/
  | impossibleDilution
  /-- `pearson_square`: `target_concentration < 0`. -/
  | negativeTarget
  /-- `convert_percentage`: unrecognized convention code. -/
  | unknownConvention (code : String)
  /-- Python `ZeroDivisionError` from `x / 0.0`. -/
  | zeroDivision
  deriving Repr, DecidableEq

/-- Python float division: raises `ZeroDivisionError` on a zero divisor. -/
def fdiv (a b : ℚ) : Except HerbErr ℚ :=
  if b = 0 then .error .zeroDivision else .ok (a / b)

/-! ## Unit registry and converter (`src/core/units.py`) -/

/-- Metadata for a registered unit (`UnitInfo` in `core/units.py`).
Fields not consulted by `convert` (aliases, disambiguation, equivalence)
are omitted; they never flow into any computation the claims mention. -/
structure UnitInfo where
  unit_name : String
  symbol : String
  system : String
  unit_type : String
  to_base : ℚ
  base_unit : String
  precise : Bool := true
  variance_note : Option String := none
  deriving Repr, DecidableEq

/-- Result of a unit conversion (`ConversionResult` in `core/units.py`).
The `formatted` property is presentation-only and not modelled. -/
structure ConversionResult where
  value : ℚ
  unit : String
  symbol : String
  system : String
  unit_type : String
  precision : Nat := 6
  warnings : List String := []
  deriving Repr, DecidableEq

/-- The built unit registry `_REGISTRY`: a finished mapping from lowercase
name-or-alias to `UnitInfo`.  The registry contents come from JSON data
files outside the embedded sources, so the converter is parametrised by
the registry. -/
def Registry : Type := String → Option UnitInfo

/-- Spec invariant of the registry data (§3: "Invariant: `to_base > 0`"). -/
def Registry.wellFormed (reg : Registry) : Prop :=
  ∀ name info, reg name = some info → 0 < info.to_base

/-- Python `str.lower()`: character-wise lowercasing. -/
def strToLower (s : String) : String := ⟨s.data.map Char.toLower⟩

/-- `get_unit_info`: case-insensitive lookup in the registry. -/
def get_unit_info (reg : Registry) (unit_name : String) : Option UnitInfo :=
  reg (strToLower unit_name)

/-- The precision warning attached for an imprecise endpoint unit
(`convert`, lines 200-210 of `core/units.py`). -/
def imprecisionWarning (info : UnitInfo) : String :=
  info.unit_name ++ " is an imprecise measure. " ++
    (info.variance_note.getD "Values are approximate.")

/-- `convert(value, from_unit, to_unit)` from `core/units.py`:
resolve both names, check the dimensions match, then route through the
base unit: one multiply by the source factor, one divide by the target
factor. -/
def convert (reg : Registry) (value : ℚ) (from_unit to_unit : String) :
    Except HerbErr ConversionResult :=
  match get_unit_info reg from_unit with
  | none => .error (.unknownUnit from_unit)
  | some from_info =>
    match get_unit_info reg to_unit with
    | none => .error (.unknownUnit to_unit)
    | some to_info =>
      if from_info.unit_type ≠ to_info.unit_type then
        .error .incompatibleDimension
      else
        match fdiv (value * from_info.to_base) to_info.to_base with
        | .error e => .error e
        | .ok result_value =>
          .ok
            { value := result_value
              unit := to_info.unit_name
              symbol := to_info.symbol
              system := to_info.system
              unit_type := to_info.unit_type
              warnings :=
                (if from_info.precise then [] else [imprecisionWarning from_info]) ++
                (if to_info.precise then [] else [imprecisionWarning to_info]) }

/-- Modelled from the spec: the unit data files (`src/data/units/*.json`)
are not under `src/`.  A minimal registry holding the units the spec's
literal scenarios name: gram (mass base unit, factor 1), kilogram
(1000 g), and milliliter (volume base unit, factor 1). -/
def specRegistry : Registry := fun name =>
  if name = "gram" then
    some { unit_name := "gram", symbol := "g", system := "metric",
           unit_type := "mass", to_base := 1, base_unit := "gram" }
  else if name = "kilogram" then
    some { unit_name := "kilogram", symbol := "kg", system := "metric",
           unit_type := "mass", to_base := 1000, base_unit := "gram" }
  else if name = "milliliter" then
    some { unit_name := "milliliter", symbol := "mL", system := "metric",
           unit_type := "volume", to_base := 1, base_unit := "milliliter" }
  else none

/-! ## Solvent calculator (`src/core/solvents.py`) -/

/-- Result of a menstruum calculation (`MenstruumResult`). -/
structure MenstruumResult where
  total_volume_ml : ℚ
  ethanol_ml : ℚ
  water_ml : ℚ
  glycerin_ml : ℚ
  herb_weight_g : ℚ
  ratio : ℚ
  target_alcohol_pct : ℚ
  ethanol_source_pct : ℚ
  glycerin_pct : ℚ
  solvent_mode : String
  warnings : List String := []
  deriving Repr, DecidableEq

/-- `MenstruumResult.ethanol_source_ml` (property): volume of source
alcohol needed; zero-guarded on a non-positive source percentage. -/
def MenstruumResult.ethanol_source_ml (r : MenstruumResult) : ℚ :=
  if r.ethanol_source_pct ≤ 0 then 0
  else r.ethanol_ml / (r.ethanol_source_pct / 100)

/-- `MenstruumResult.added_water_ml` (property): water to add, net of the
water already present in the source alcohol. -/
def MenstruumResult.added_water_ml (r : MenstruumResult) : ℚ :=
  let water_in_source := r.ethanol_source_ml - r.ethanol_ml
  max 0 (r.water_ml - water_in_source)

/-- Result of a Pearson square dilution (`DilutionResult`). -/
structure DilutionResult where
  total_volume_ml : ℚ
  source_volume_ml : ℚ
  diluent_volume_ml : ℚ
  source_concentration : ℚ
  target_concentration : ℚ
  warnings : List String := []
  deriving Repr, DecidableEq

/-- One sample point of the ethanol-water density table. -/
structure DensityEntry where
  ethanol_pct_vv : ℚ
  density_g_ml : ℚ
  deriving Repr, DecidableEq

/-- The `lower` update of the bracket-finding loop (lines 90-92 of
`core/solvents.py`): take the entry when it lies below the query and is
nearer than the current candidate. -/
def stepLower (x : ℚ) (lower : Option DensityEntry) (entry : DensityEntry) :
    Option DensityEntry :=
  if entry.ethanol_pct_vv < x then
    match lower with
    | none => some entry
    | some l =>
      if l.ethanol_pct_vv < entry.ethanol_pct_vv then some entry else some l
  else lower

/-- The `upper` update of the bracket-finding loop (lines 93-95 of
`core/solvents.py`): take the entry when it lies above the query and is
nearer than the current candidate. -/
def stepUpper (x : ℚ) (upper : Option DensityEntry) (entry : DensityEntry) :
    Option DensityEntry :=
  if x < entry.ethanol_pct_vv then
    match upper with
    | none => some entry
    | some u =>
      if entry.ethanol_pct_vv < u.ethanol_pct_vv then some entry else some u
  else upper

/-- The bracket-finding loop of `lookup_ethanol_density` (lines 84-95):
walk the table accumulating the nearest sample strictly below (`lower`)
and strictly above (`upper`) the query, returning early with the density
of the first exact match. -/
def densityScan (x : ℚ) :
    List DensityEntry → Option DensityEntry → Option DensityEntry →
    Option ℚ × Option DensityEntry × Option DensityEntry
  | [], lower, upper => (none, lower, upper)
  | entry :: rest, lower, upper =>
    if entry.ethanol_pct_vv = x then (some entry.density_g_ml, lower, upper)
    else densityScan x rest (stepLower x lower entry) (stepUpper x upper entry)

/-- `lookup_ethanol_density(ethanol_pct_vv)`: range check, empty-table
linear fallback between water (1.000) and pure ethanol (0.7893), exact
match, one-sided clamp, or linear interpolation between the brackets.
The interpolation divisor is nonzero because the selected brackets lie
strictly below and above the query point. -/
def lookup_ethanol_density (table : List DensityEntry) (pct : ℚ) :
    Except HerbErr ℚ :=
  if pct < 0 ∨ 100 < pct then .error .outOfRange
  else if table.isEmpty then
    .ok (1 - (pct / 100) * (1 - 7893 / 10000))
  else
    match densityScan pct table none none with
    | (some d, _, _) => .ok d
    | (none, none, some upper) => .ok upper.density_g_ml
    | (none, some lower, none) => .ok lower.density_g_ml
    | (none, none, none) => .ok 1
    | (none, some lower, some upper) =>
      .ok (lower.density_g_ml +
        (pct - lower.ethanol_pct_vv) /
            (upper.ethanol_pct_vv - lower.ethanol_pct_vv) *
          (upper.density_g_ml - lower.density_g_ml))

/-- The over-constrained-composition warning text of
`calculate_menstruum` (lines 186-189). -/
def overConstrainedWarning (glycerin_pct target_alcohol_pct : ℚ) : String :=
  "Glycerin (" ++ toString glycerin_pct ++ " pct) + alcohol (" ++
    toString target_alcohol_pct ++
    " pct) exceed 100 pct of the menstruum. Reduce one or both."

/-- `calculate_menstruum(herb_weight_g, ratio, ethanol_source_pct,
target_alcohol_pct, glycerin_pct, solvent_mode)`: total volume from the
extraction ratio, glycerin and pure-ethanol shares by percentage, water
as the remainder, clamped at zero with a warning when negative. -/
def calculate_menstruum (herb_weight_g ratio ethanol_source_pct
    target_alcohol_pct : ℚ) (glycerin_pct : ℚ := 0)
    (solvent_mode : String := "hydroethanolic") : MenstruumResult :=
  let total_volume := herb_weight_g * ratio
  let glycerin_ml := total_volume * (glycerin_pct / 100)
  let ethanol_ml := total_volume * (target_alcohol_pct / 100)
  let water_raw := total_volume - glycerin_ml - ethanol_ml
  let warnings : List String :=
    if water_raw < 0 then [overConstrainedWarning glycerin_pct target_alcohol_pct]
    else []
  let water_ml := if water_raw < 0 then 0 else water_raw
  { total_volume_ml := total_volume
    ethanol_ml := ethanol_ml
    water_ml := water_ml
    glycerin_ml := glycerin_ml
    herb_weight_g := herb_weight_g
    ratio := ratio
    target_alcohol_pct := target_alcohol_pct
    ethanol_source_pct := ethanol_source_pct
    glycerin_pct := glycerin_pct
    solvent_mode := solvent_mode
    warnings := warnings }

/-- `pearson_square(source_concentration, target_concentration,
total_volume_ml)`: guards, all-diluent shortcut at a zero target, then
the cross-multiplication.  `total_parts` equals `source_concentration`,
which the first guard makes positive, so the division is safe. -/
def pearson_square (source_concentration target_concentration
    total_volume_ml : ℚ) : Except HerbErr DilutionResult :=
  if source_concentration ≤ 0 then .error .nonPositiveSource
  else if source_concentration < target_concentration then
    .error .impossibleDilution
  else if target_concentration < 0 then .error .negativeTarget
  else if target_concentration = 0 then
    .ok { total_volume_ml := total_volume_ml
          source_volume_ml := 0
          diluent_volume_ml := total_volume_ml
          source_concentration := source_concentration
          target_concentration := 0 }
  else
    let parts_source := target_concentration
    let parts_diluent := source_concentration - target_concentration
    let total_parts := parts_source + parts_diluent
    .ok { total_volume_ml := total_volume_ml
          source_volume_ml := total_volume_ml * (parts_source / total_parts)
          diluent_volume_ml := total_volume_ml * (parts_diluent / total_parts)
          source_concentration := source_concentration
          target_concentration := target_concentration }

/-- The built-in substance density table of `convert_percentage`
(lines 309-314): ethanol 0.7893, glycerin 1.261, water 1.0, unknown
substances default to 1.0. -/
def substance_density (substance : String) : ℚ :=
  if substance = "ethanol" then 7893 / 10000
  else if substance = "glycerin" then 1261 / 1000
  else if substance = "water" then 1
  else 1

/-- `convert_percentage(value, from_convention, to_convention, substance,
ethanol_pct_vv)`: identity when the codes match, otherwise route through
v/v, using the ethanol-water mixture density looked up at
`ethanol_pct_vv` (or `value` itself when not supplied). -/
def convert_percentage (table : List DensityEntry) (value : ℚ)
    (from_convention to_convention : String)
    (substance : String := "ethanol") (ethanol_pct_vv : Option ℚ := none) :
    Except HerbErr ℚ :=
  if from_convention = to_convention then .ok value
  else
    let sd := substance_density substance
    match (if substance = "ethanol" then
             lookup_ethanol_density table (ethanol_pct_vv.getD value)
           else (.ok 1 : Except HerbErr ℚ)) with
    | .error e => .error e
    | .ok mixture_density =>
      match (if from_convention = "vv" then .ok value
             else if from_convention = "wv" then .ok (value / sd)
             else if from_convention = "ww" then
               .ok (value * mixture_density / sd)
             else
               (.error (.unknownConvention from_convention) :
                 Except HerbErr ℚ)) with
      | .error e => .error e
      | .ok vv_value =>
        if to_convention = "vv" then .ok vv_value
        else if to_convention = "wv" then .ok (vv_value * sd)
        else if to_convention = "ww" then fdiv (vv_value * sd) mixture_density
        else .error (.unknownConvention to_convention)

/-! ## Formulation blender (`src/core/formulation.py`) -/

/-- A single herb in a multi-herb formula (`HerbEntry`). -/
structure HerbEntry where
  name : String
  parts : ℚ
  ratio : ℚ := 5
  alcohol_pct : ℚ := 45
  notes : Option String := none
  deriving Repr, DecidableEq

/-- A herb entry scaled to absolute weights (`ScaledEntry`). -/
structure ScaledEntry where
  name : String
  parts : ℚ
  weight_g : ℚ
  menstruum_ml : ℚ
  ratio : ℚ
  alcohol_pct : ℚ
  deriving Repr, DecidableEq

/-- Result of a multi-herb formula calculation (`FormulaResult`);
`per_herb_details`, which `build_formula` never populates, is omitted. -/
structure FormulaResult where
  herbs : List ScaledEntry
  total_herb_weight_g : ℚ
  total_menstruum_ml : ℚ
  compromise_alcohol_pct : ℚ
  warnings : List String := []
  deriving Repr, DecidableEq

/-- Python `a or b` over an optional float: `None` and `0.0` are falsy. -/
def pyOrQ (a : Option ℚ) (b : ℚ) : ℚ :=
  match a with
  | none => b
  | some x => if x = 0 then b else x

/-- The per-herb scaling loop of `build_formula` (lines 109-124):
`menstruum_ml = effective_volume * parts/total_parts`,
`weight_g = menstruum_ml / ratio` — the latter an unguarded float
division that raises `ZeroDivisionError` on a zero ratio. -/
def scaleHerbs (effective_volume total_parts : ℚ) :
    List HerbEntry → Except HerbErr (List ScaledEntry)
  | [] => .ok []
  | herb :: rest =>
    let proportion := herb.parts / total_parts
    let herb_menstruum_ml := effective_volume * proportion
    match fdiv herb_menstruum_ml herb.ratio with
    | .error e => .error e
    | .ok herb_weight_g =>
      match scaleHerbs effective_volume total_parts rest with
      | .error e => .error e
      | .ok scaled_rest =>
        .ok ({ name := herb.name
               parts := herb.parts
               weight_g := herb_weight_g
               menstruum_ml := herb_menstruum_ml
               ratio := herb.ratio
               alcohol_pct := herb.alcohol_pct } :: scaled_rest)

/-- `build_formula(herbs, target_volume_ml, bottle_size_ml)`: soft-fail
on an empty list or non-positive total parts, pick the effective volume
by Python truthiness, compute the parts-weighted compromise alcohol
percentage, and scale each herb. -/
def build_formula (herbs : List HerbEntry)
    (target_volume_ml : Option ℚ := none)
    (bottle_size_ml : Option ℚ := none) : Except HerbErr FormulaResult :=
  if herbs.isEmpty then
    .ok { herbs := []
          total_herb_weight_g := 0
          total_menstruum_ml := 0
          compromise_alcohol_pct := 0
          warnings := ["No herbs in formula."] }
  else
    let total_parts := (herbs.map HerbEntry.parts).sum
    if total_parts ≤ 0 then
      .ok { herbs := []
            total_herb_weight_g := 0
            total_menstruum_ml := 0
            compromise_alcohol_pct := 0
            warnings := ["Total parts must be greater than zero."] }
    else
      let effective_volume := pyOrQ target_volume_ml (pyOrQ bottle_size_ml 100)
      let compromise_alcohol :=
        (herbs.map (fun h => h.alcohol_pct * (h.parts / total_parts))).sum
      match scaleHerbs effective_volume total_parts herbs with
      | .error e => .error e
      | .ok scaled_herbs =>
        .ok { herbs := scaled_herbs
              total_herb_weight_g := (scaled_herbs.map ScaledEntry.weight_g).sum
              total_menstruum_ml :=
                (scaled_herbs.map ScaledEntry.menstruum_ml).sum
              compromise_alcohol_pct := compromise_alcohol
              warnings := [] }

/-- `dry_equivalent(tincture_ml, ratio)` = `tincture_ml / ratio`;
fails on `ratio <= 0`. -/
def dry_equivalent (tincture_ml ratio : ℚ) : Except HerbErr ℚ :=
  if ratio ≤ 0 then .error .invalidRatio
  else .ok (tincture_ml / ratio)

/-- `tincture_from_dose(target_herb_mg, ratio)` = `(target_herb_mg /
1000) * ratio`; fails on `ratio <= 0`. -/
def tincture_from_dose (target_herb_mg ratio : ℚ) : Except HerbErr ℚ :=
  if ratio ≤ 0 then .error .invalidRatio
  else .ok (target_herb_mg / 1000 * ratio)

/-! ## Theorems -/

theorem fdiv_ok {a b : ℚ} (hb : b ≠ 0) : fdiv a b = .ok (a / b) := by
  simp [fdiv, hb]

theorem specRegistry_wellFormed : Registry.wellFormed specRegistry := by
  intro name info h
  unfold specRegistry at h
  split at h
  · cases h; norm_num
  · split at h
    · cases h; norm_num
    · split at h
      · cases h; norm_num
      · cases h

/-- On resolvable names of matching dimension (with the registry invariant
ruling out a zero divisor), `convert` succeeds and the value is
`value * from.to_base / to.to_base`. -/
theorem convert_ok (reg : Registry) (value : ℚ) (f t : String)
    (fi ti : UnitInfo) (hf : get_unit_info reg f = some fi)
    (ht : get_unit_info reg t = some ti)
    (hdim : fi.unit_type = ti.unit_type) (htb : ti.to_base ≠ 0) :
    convert reg value f t =
      .ok { value := value * fi.to_base / ti.to_base
            unit := ti.unit_name
            symbol := ti.symbol
            system := ti.system
            unit_type := ti.unit_type
            warnings :=
              (if fi.precise then [] else [imprecisionWarning fi]) ++
              (if ti.precise then [] else [imprecisionWarning ti]) } := by
  simp [convert, hf, ht, hdim, fdiv_ok htb]

/-- C1: for every value `v` and every pair of registered units `A`, `B` of
the same dimension, `convert(v, A, B)` returns `v * A.to_base / B.to_base`
(one multiply by the source factor, one divide by the target factor), and
the round trip `convert(convert(v, A, B).value, B, A).value` recovers `v`
— exactly in the rational model, hence within the claimed relative
tolerance of 1e-9. -/
theorem C1_convert_value_and_roundtrip (reg : Registry)
    (hwf : reg.wellFormed) (v : ℚ) (A B : String) (ua ub : UnitInfo)
    (ha : get_unit_info reg A = some ua) (hb : get_unit_info reg B = some ub)
    (hdim : ua.unit_type = ub.unit_type) :
    ∃ r : ConversionResult, convert reg v A B = .ok r ∧
      r.value = v * ua.to_base / ub.to_base ∧
      ∃ r2 : ConversionResult, convert reg r.value B A = .ok r2 ∧
        r2.value = v := by
  have ha0 : ua.to_base ≠ 0 := ne_of_gt (hwf _ _ ha)
  have hb0 : ub.to_base ≠ 0 := ne_of_gt (hwf _ _ hb)
  refine ⟨_, convert_ok reg v A B ua ub ha hb hdim hb0, rfl,
    _, convert_ok reg _ B A ub ua hb ha hdim.symm ha0, ?_⟩
  show v * ua.to_base / ub.to_base * ub.to_base / ua.to_base = v
  field_simp

/-- Witness for C1 at a concrete input: 1000 grams is 1 kilogram and back. -/
theorem C1_witness :
    ∃ r : ConversionResult, convert specRegistry 1000 "gram" "kilogram" = .ok r ∧
      r.value = 1 ∧
      ∃ r2 : ConversionResult, convert specRegistry r.value "kilogram" "gram" = .ok r2 ∧
        r2.value = 1000 := by
  obtain ⟨r, h1, h2, r2, h3, h4⟩ :=
    C1_convert_value_and_roundtrip specRegistry specRegistry_wellFormed
      1000 "gram" "kilogram"
      { unit_name := "gram", symbol := "g", system := "metric",
        unit_type := "mass", to_base := 1, base_unit := "gram" }
      { unit_name := "kilogram", symbol := "kg", system := "metric",
        unit_type := "mass", to_base := 1000, base_unit := "gram" }
      (by decide) (by decide) rfl
  exact ⟨r, h1, by rw [h2]; norm_num, r2, h3, h4⟩

/-- C5: `convert` fails exactly when a unit name does not resolve
(`UnknownUnit`, checking the source name first) or the two resolved units
have different dimensions (`IncompatibleDimension`); in every other case
it returns a `ConversionResult` without raising. -/
theorem C5_convert_failure_characterization (reg : Registry)
    (hwf : reg.wellFormed) (v : ℚ) (f t : String) :
    (get_unit_info reg f = none →
      convert reg v f t = .error (.unknownUnit f)) ∧
    (∀ fi, get_unit_info reg f = some fi → get_unit_info reg t = none →
      convert reg v f t = .error (.unknownUnit t)) ∧
    (∀ fi ti, get_unit_info reg f = some fi →
      get_unit_info reg t = some ti → fi.unit_type ≠ ti.unit_type →
      convert reg v f t = .error .incompatibleDimension) ∧
    (∀ fi ti, get_unit_info reg f = some fi →
      get_unit_info reg t = some ti → fi.unit_type = ti.unit_type →
      ∃ r : ConversionResult, convert reg v f t = .ok r) := by
  refine ⟨fun hf => by simp [convert, hf],
    fun fi hf ht => by simp [convert, hf, ht],
    fun fi ti hf ht hdim => by simp [convert, hf, ht, hdim],
    fun fi ti hf ht hdim =>
      ⟨_, convert_ok reg v f t fi ti hf ht hdim (ne_of_gt (hwf _ _ ht))⟩⟩

/-- Witness for C5 at the spec's literal scenario: converting gram to
milliliter fails with the dimension-mismatch error for the value 7. -/
theorem C5_witness :
    convert specRegistry 7 "gram" "milliliter" = .error .incompatibleDimension := by
  have h := C5_convert_failure_characterization specRegistry
    specRegistry_wellFormed 7 "gram" "milliliter"
  exact h.2.2.1
    { unit_name := "gram", symbol := "g", system := "metric",
      unit_type := "mass", to_base := 1, base_unit := "gram" }
    { unit_name := "milliliter", symbol := "mL", system := "metric",
      unit_type := "volume", to_base := 1, base_unit := "milliliter" }
    (by decide) (by decide) (by decide)

/-- C2 counterexample: at `calculate_menstruum(-1, 5, 94, 40, 0)` the
precondition `glycerin_pct + target_alcohol_pct ≤ 100` holds, yet the
clamp of the negative water remainder breaks the claimed conservation
`ethanol_ml + water_ml + glycerin_ml == total_volume_ml`
(sum -2, total -5). -/
theorem C2_counterexample :
    (calculate_menstruum (-1) 5 94 40 0).glycerin_pct +
        (calculate_menstruum (-1) 5 94 40 0).target_alcohol_pct ≤ 100 ∧
      (calculate_menstruum (-1) 5 94 40 0).ethanol_ml +
          (calculate_menstruum (-1) 5 94 40 0).water_ml +
          (calculate_menstruum (-1) 5 94 40 0).glycerin_ml ≠
        (calculate_menstruum (-1) 5 94 40 0).total_volume_ml := by
  constructor <;> norm_num [calculate_menstruum]

/-- C2 (amended: additionally requiring a nonnegative herb weight and
ratio, so the total volume is nonnegative): `calculate_menstruum` returns
`total = herb_g * ratio`, `ethanol = total * alcohol_pct/100`,
`glycerin = total * glycerin_pct/100`, and water such that
`ethanol + water + glycerin = total`; at the literal input
`(100, 5, 94, 40, 0)` it yields total 500, ethanol 200, water 300, with
the derived source-alcohol volume within 0.01 of 212.77 and the added
water within 0.01 of 287.23. -/
theorem C2_menstruum_conservation (herb_g ratio src a g : ℚ)
    (hg : 0 ≤ herb_g) (hr : 0 ≤ ratio) (hsum : g + a ≤ 100) :
    (calculate_menstruum herb_g ratio src a g).total_volume_ml =
        herb_g * ratio ∧
      (calculate_menstruum herb_g ratio src a g).ethanol_ml =
        herb_g * ratio * (a / 100) ∧
      (calculate_menstruum herb_g ratio src a g).glycerin_ml =
        herb_g * ratio * (g / 100) ∧
      (calculate_menstruum herb_g ratio src a g).ethanol_ml +
          (calculate_menstruum herb_g ratio src a g).water_ml +
          (calculate_menstruum herb_g ratio src a g).glycerin_ml =
        (calculate_menstruum herb_g ratio src a g).total_volume_ml ∧
      (calculate_menstruum 100 5 94 40 0).total_volume_ml = 500 ∧
      (calculate_menstruum 100 5 94 40 0).ethanol_ml = 200 ∧
      (calculate_menstruum 100 5 94 40 0).water_ml = 300 ∧
      |(calculate_menstruum 100 5 94 40 0).ethanol_source_ml - 21277 / 100| <
        1 / 100 ∧
      |(calculate_menstruum 100 5 94 40 0).added_water_ml - 28723 / 100| <
        1 / 100 := by
  have htot : 0 ≤ herb_g * ratio := mul_nonneg hg hr
  have hw : ¬ herb_g * ratio - herb_g * ratio * (g / 100) -
      herb_g * ratio * (a / 100) < 0 := by
    rw [not_lt]
    nlinarith
  have he : calculate_menstruum herb_g ratio src a g =
      { total_volume_ml := herb_g * ratio
        ethanol_ml := herb_g * ratio * (a / 100)
        water_ml := herb_g * ratio - herb_g * ratio * (g / 100) -
          herb_g * ratio * (a / 100)
        glycerin_ml := herb_g * ratio * (g / 100)
        herb_weight_g := herb_g
        ratio := ratio
        target_alcohol_pct := a
        ethanol_source_pct := src
        glycerin_pct := g
        solvent_mode := "hydroethanolic"
        warnings := [] } := by
    simp only [calculate_menstruum, if_neg hw]
  have hc : calculate_menstruum 100 5 94 40 0 =
      { total_volume_ml := 500
        ethanol_ml := 200
        water_ml := 300
        glycerin_ml := 0
        herb_weight_g := 100
        ratio := 5
        target_alcohol_pct := 40
        ethanol_source_pct := 94
        glycerin_pct := 0
        solvent_mode := "hydroethanolic"
        warnings := [] } := by
    norm_num [calculate_menstruum]
  rw [he, hc]
  refine ⟨rfl, rfl, rfl, by ring, rfl, rfl, rfl, ?_, ?_⟩
  · norm_num [MenstruumResult.ethanol_source_ml, abs_lt]
  · norm_num [MenstruumResult.added_water_ml,
      MenstruumResult.ethanol_source_ml, abs_lt, max_def]

/-- Witness for C2 at the literal input `(100, 5, 94, 40, 0)`. -/
theorem C2_witness :
    (calculate_menstruum 100 5 94 40 0).ethanol_ml +
        (calculate_menstruum 100 5 94 40 0).water_ml +
        (calculate_menstruum 100 5 94 40 0).glycerin_ml =
      (calculate_menstruum 100 5 94 40 0).total_volume_ml :=
  (C2_menstruum_conservation 100 5 94 40 0 (by norm_num) (by norm_num)
    (by norm_num)).2.2.2.1

/-- C8 counterexample: at `calculate_menstruum(-1, 5, 94, 60, 60)` the
precondition `glycerin_pct + target_alcohol_pct > 100` holds, yet the
water remainder comes out positive (1 mL, because the total volume is
negative), so water is not clamped to 0 and no warning is attached. -/
theorem C8_counterexample :
    (100 : ℚ) < (calculate_menstruum (-1) 5 94 60 60).glycerin_pct +
        (calculate_menstruum (-1) 5 94 60 60).target_alcohol_pct ∧
      (calculate_menstruum (-1) 5 94 60 60).water_ml ≠ 0 ∧
      (calculate_menstruum (-1) 5 94 60 60).warnings = [] := by
  refine ⟨?_, ?_, ?_⟩ <;> norm_num [calculate_menstruum]

/-- C8 (amended: additionally requiring a positive total volume
`herb_g * ratio > 0`): when `glycerin_pct + target_alcohol_pct > 100`
the call does not fail — water is clamped to 0, the over-constrained
warning is attached, and total, ethanol and glycerin are computed as
usual. -/
theorem C8_overconstrained_clamped (herb_g ratio src a g : ℚ)
    (hpos : 0 < herb_g * ratio) (hover : 100 < g + a) :
    (calculate_menstruum herb_g ratio src a g).water_ml = 0 ∧
      (calculate_menstruum herb_g ratio src a g).warnings =
        [overConstrainedWarning g a] ∧
      (calculate_menstruum herb_g ratio src a g).total_volume_ml =
        herb_g * ratio ∧
      (calculate_menstruum herb_g ratio src a g).ethanol_ml =
        herb_g * ratio * (a / 100) ∧
      (calculate_menstruum herb_g ratio src a g).glycerin_ml =
        herb_g * ratio * (g / 100) := by
  have hw : herb_g * ratio - herb_g * ratio * (g / 100) -
      herb_g * ratio * (a / 100) < 0 := by nlinarith
  have he : calculate_menstruum herb_g ratio src a g =
      { total_volume_ml := herb_g * ratio
        ethanol_ml := herb_g * ratio * (a / 100)
        water_ml := 0
        glycerin_ml := herb_g * ratio * (g / 100)
        herb_weight_g := herb_g
        ratio := ratio
        target_alcohol_pct := a
        ethanol_source_pct := src
        glycerin_pct := g
        solvent_mode := "hydroethanolic"
        warnings := [overConstrainedWarning g a] } := by
    simp only [calculate_menstruum, if_pos hw]
  rw [he]
  exact ⟨rfl, rfl, rfl, rfl, rfl⟩

/-- Witness for C8 at `calculate_menstruum(1, 5, 94, 60, 60)`. -/
theorem C8_witness :
    (calculate_menstruum 1 5 94 60 60).water_ml = 0 ∧
      (calculate_menstruum 1 5 94 60 60).warnings =
        [overConstrainedWarning 60 60] :=
  ⟨(C8_overconstrained_clamped 1 5 94 60 60 (by norm_num) (by norm_num)).1,
   (C8_overconstrained_clamped 1 5 94 60 60 (by norm_num) (by norm_num)).2.1⟩

/-- C3: for `source_pct > 0`, `0 ≤ target_pct ≤ source_pct` and
`total_ml > 0`, `pearson_square` succeeds with
`source_ml = total * target / source` and
`diluent_ml = total * (source - target) / source`, the two summing
exactly to the total; a zero target gives zero source and all diluent. -/
theorem C3_pearson_square (src tgt total : ℚ) (hs : 0 < src)
    (ht0 : 0 ≤ tgt) (hts : tgt ≤ src) (htot : 0 < total) :
    ∃ d : DilutionResult, pearson_square src tgt total = .ok d ∧
      d.source_volume_ml = total * tgt / src ∧
      d.diluent_volume_ml = total * (src - tgt) / src ∧
      d.source_volume_ml + d.diluent_volume_ml = total ∧
      (tgt = 0 → d.source_volume_ml = 0 ∧ d.diluent_volume_ml = total) := by
  have hs' : ¬ src ≤ 0 := not_le.2 hs
  have hts' : ¬ src < tgt := not_lt.2 hts
  have ht0' : ¬ tgt < 0 := not_lt.2 ht0
  have hsne : src ≠ 0 := ne_of_gt hs
  by_cases h0 : tgt = 0
  · subst h0
    have he : pearson_square src 0 total = .ok
        { total_volume_ml := total, source_volume_ml := 0,
          diluent_volume_ml := total, source_concentration := src,
          target_concentration := 0 } := by
      simp [pearson_square, hs', hts']
    refine ⟨_, he, by simp, ?_, by simp, fun _ => ⟨rfl, rfl⟩⟩
    show total = total * (src - 0) / src
    field_simp
  · have he : pearson_square src tgt total =
        .ok { total_volume_ml := total
              source_volume_ml := total * (tgt / (tgt + (src - tgt)))
              diluent_volume_ml := total * ((src - tgt) / (tgt + (src - tgt)))
              source_concentration := src
              target_concentration := tgt } := by
      simp [pearson_square, hs', hts', ht0', h0]
    refine ⟨_, he, ?_, ?_, ?_, fun h => absurd h h0⟩
    · show total * (tgt / (tgt + (src - tgt))) = total * tgt / src
      rw [show tgt + (src - tgt) = src by ring, mul_div_assoc]
    · show total * ((src - tgt) / (tgt + (src - tgt))) = total * (src - tgt) / src
      rw [show tgt + (src - tgt) = src by ring, mul_div_assoc]
    · show total * (tgt / (tgt + (src - tgt))) +
          total * ((src - tgt) / (tgt + (src - tgt))) = total
      rw [show tgt + (src - tgt) = src by ring]
      field_simp
      ring

/-- Witness for C3 at the spec's literal scenario `(95, 40, 1000)`. -/
theorem C3_witness :
    ∃ d : DilutionResult, pearson_square 95 40 1000 = .ok d ∧
      d.source_volume_ml = 1000 * 40 / 95 ∧
      d.diluent_volume_ml = 1000 * (95 - 40) / 95 ∧
      d.source_volume_ml + d.diluent_volume_ml = 1000 ∧
      ((40 : ℚ) = 0 → d.source_volume_ml = 0 ∧ d.diluent_volume_ml = 1000) :=
  C3_pearson_square 95 40 1000 (by norm_num) (by norm_num) (by norm_num)
    (by norm_num)

/-- C7: for `mg > 0` and `ratio > 0`,
`dry_equivalent(tincture_from_dose(mg, ratio), ratio) * 1000 = mg`
exactly (the two operations are inverses), and each operation fails with
the invalid-ratio error whenever `ratio ≤ 0`. -/
theorem C7_dose_inverse (mg r : ℚ) (hmg : 0 < mg) (hr : 0 < r) :
    (∃ t d : ℚ, tincture_from_dose mg r = .ok t ∧
      dry_equivalent t r = .ok d ∧ d * 1000 = mg) ∧
    (∀ x r2 : ℚ, r2 ≤ 0 →
      dry_equivalent x r2 = .error .invalidRatio ∧
      tincture_from_dose x r2 = .error .invalidRatio) := by
  have hr' : ¬ r ≤ 0 := not_le.2 hr
  have hrne : r ≠ 0 := ne_of_gt hr
  constructor
  · refine ⟨mg / 1000 * r, mg / 1000 * r / r,
      by simp [tincture_from_dose, hr'], by simp [dry_equivalent, hr'], ?_⟩
    field_simp
    ring
  · intro x r2 h2
    exact ⟨by simp [dry_equivalent, h2], by simp [tincture_from_dose, h2]⟩

/-- Witness for C7 at the spec's literal scenario `mg = 500`,
`ratio = 5` (`tincture_from_dose(500, 5) = 2.5`). -/
theorem C7_witness :
    ∃ t d : ℚ, tincture_from_dose 500 5 = .ok t ∧
      dry_equivalent t 5 = .ok d ∧ d * 1000 = 500 :=
  (C7_dose_inverse 500 5 (by norm_num) (by norm_num)).1

/-- When every ratio is nonzero, the scaling loop succeeds and produces
exactly the proportional allocation. -/
theorem scaleHerbs_ok (eff T : ℚ) (hs : List HerbEntry)
    (hr : ∀ h ∈ hs, h.ratio ≠ 0) :
    scaleHerbs eff T hs = .ok (hs.map (fun h =>
      { name := h.name
        parts := h.parts
        weight_g := eff * (h.parts / T) / h.ratio
        menstruum_ml := eff * (h.parts / T)
        ratio := h.ratio
        alcohol_pct := h.alcohol_pct })) := by
  induction hs with
  | nil => rfl
  | cons h t ih =>
    have hh : h.ratio ≠ 0 := hr h (by simp)
    have ht : ∀ x ∈ t, x.ratio ≠ 0 := fun x hx => hr x (by simp [hx])
    simp [scaleHerbs, fdiv_ok hh, ih ht]

/-- A zero ratio anywhere in the list makes the scaling loop raise the
division-by-zero error. -/
theorem scaleHerbs_zero (eff T : ℚ) (hs : List HerbEntry)
    (hz : ∃ h ∈ hs, h.ratio = 0) :
    scaleHerbs eff T hs = .error .zeroDivision := by
  induction hs with
  | nil => simp at hz
  | cons h t ih =>
    by_cases hh : h.ratio = 0
    · simp [scaleHerbs, fdiv, hh]
    · obtain ⟨x, hx, hx0⟩ := hz
      rcases List.mem_cons.1 hx with rfl | hxt
      · exact absurd hx0 hh
      · simp [scaleHerbs, fdiv_ok hh, ih ⟨x, hxt, hx0⟩]

/-- The proportional allocations over a list sum to
`eff * (sum of parts) / T`. -/
theorem sum_menstruum (eff T : ℚ) (hs : List HerbEntry) :
    (hs.map (fun h => eff * (h.parts / T))).sum =
      eff * ((hs.map HerbEntry.parts).sum / T) := by
  induction hs with
  | nil => simp
  | cons h t ih =>
    simp only [List.map_cons, List.sum_cons, ih]
    ring

/-- On a non-empty list with positive total parts and nonzero ratios,
`build_formula` with an explicit target volume succeeds, producing the
proportional allocation and its accumulated totals. -/
theorem build_formula_ok (herbs : List HerbEntry) (tv : ℚ)
    (hne : herbs ≠ []) (hT : 0 < (herbs.map HerbEntry.parts).sum)
    (hratio : ∀ h ∈ herbs, h.ratio ≠ 0) :
    build_formula herbs (some tv) none = .ok
      { herbs := herbs.map (fun h =>
          { name := h.name
            parts := h.parts
            weight_g := pyOrQ (some tv) (pyOrQ none 100) *
              (h.parts / (herbs.map HerbEntry.parts).sum) / h.ratio
            menstruum_ml := pyOrQ (some tv) (pyOrQ none 100) *
              (h.parts / (herbs.map HerbEntry.parts).sum)
            ratio := h.ratio
            alcohol_pct := h.alcohol_pct })
        total_herb_weight_g := ((herbs.map (fun h =>
          ({ name := h.name
             parts := h.parts
             weight_g := pyOrQ (some tv) (pyOrQ none 100) *
               (h.parts / (herbs.map HerbEntry.parts).sum) / h.ratio
             menstruum_ml := pyOrQ (some tv) (pyOrQ none 100) *
               (h.parts / (herbs.map HerbEntry.parts).sum)
             ratio := h.ratio
             alcohol_pct := h.alcohol_pct } : ScaledEntry))).map
              ScaledEntry.weight_g).sum
        total_menstruum_ml := ((herbs.map (fun h =>
          ({ name := h.name
             parts := h.parts
             weight_g := pyOrQ (some tv) (pyOrQ none 100) *
               (h.parts / (herbs.map HerbEntry.parts).sum) / h.ratio
             menstruum_ml := pyOrQ (some tv) (pyOrQ none 100) *
               (h.parts / (herbs.map HerbEntry.parts).sum)
             ratio := h.ratio
             alcohol_pct := h.alcohol_pct } : ScaledEntry))).map
              ScaledEntry.menstruum_ml).sum
        compromise_alcohol_pct := (herbs.map (fun h =>
          h.alcohol_pct * (h.parts / (herbs.map HerbEntry.parts).sum))).sum
        warnings := [] } := by
  have hemp : herbs.isEmpty = false := by
    cases herbs with
    | nil => exact absurd rfl hne
    | cons a as => rfl
  simp only [build_formula, hemp, Bool.false_eq_true, if_false,
    if_neg (not_le.2 hT), scaleHerbs_ok _ _ herbs hratio]

/-- C4: for a non-empty herb list with positive parts (and ratios
nonzero so each weight is defined), `build_formula` with an explicit
target volume allocates each herb `menstruum_ml = effective_volume *
parts/total_parts` and `weight_g = menstruum_ml / ratio`, computes the
compromise alcohol percentage as the parts-weighted average, and the
per-herb menstruum volumes sum to the effective volume; the literal
formula `[A: 3 parts, 1:5, 60%; B: 1 part, 1:5, 40%]` at 100 mL gives
compromise 55, menstruum 75 mL for A and 25 mL for B. -/
theorem C4_build_formula (herbs : List HerbEntry) (tv : ℚ)
    (hne : herbs ≠ []) (hparts : ∀ h ∈ herbs, 0 < h.parts)
    (hratio : ∀ h ∈ herbs, h.ratio ≠ 0) :
    (∃ fr : FormulaResult, build_formula herbs (some tv) none = .ok fr ∧
      fr.compromise_alcohol_pct = (herbs.map (fun h =>
        h.alcohol_pct * (h.parts / (herbs.map HerbEntry.parts).sum))).sum ∧
      fr.herbs = herbs.map (fun h =>
        { name := h.name
          parts := h.parts
          weight_g := pyOrQ (some tv) 100 *
            (h.parts / (herbs.map HerbEntry.parts).sum) / h.ratio
          menstruum_ml := pyOrQ (some tv) 100 *
            (h.parts / (herbs.map HerbEntry.parts).sum)
          ratio := h.ratio
          alcohol_pct := h.alcohol_pct }) ∧
      (fr.herbs.map ScaledEntry.menstruum_ml).sum = pyOrQ (some tv) 100) ∧
    build_formula [⟨"A", 3, 5, 60, none⟩, ⟨"B", 1, 5, 40, none⟩]
        (some 100) none =
      .ok { herbs := [⟨"A", 3, 15, 75, 5, 60⟩, ⟨"B", 1, 5, 25, 5, 40⟩]
            total_herb_weight_g := 20
            total_menstruum_ml := 100
            compromise_alcohol_pct := 55
            warnings := [] } := by
  constructor
  · have hT : 0 < (herbs.map HerbEntry.parts).sum := by
      apply List.sum_pos
      · intro x hx
        obtain ⟨h, hh, rfl⟩ := List.mem_map.1 hx
        exact hparts h hh
      · simpa using hne
    have hT' : ¬ (herbs.map HerbEntry.parts).sum ≤ 0 := not_le.2 hT
    have hTne : (herbs.map HerbEntry.parts).sum ≠ 0 := ne_of_gt hT
    have hemp : herbs.isEmpty = false := by
      cases herbs with
      | nil => exact absurd rfl hne
      | cons a as => rfl
    refine ⟨_, build_formula_ok herbs tv hne hT hratio, rfl, rfl, ?_⟩
    rw [List.map_map]
    show (herbs.map (fun h => pyOrQ (some tv) (pyOrQ none 100) *
      (h.parts / (herbs.map HerbEntry.parts).sum))).sum = pyOrQ (some tv) 100
    rw [sum_menstruum, div_self hTne, mul_one]
    rfl
  · norm_num [build_formula, scaleHerbs, fdiv, pyOrQ]

/-- Witness for C4 at the literal two-herb formula of the spec. -/
theorem C4_witness :
    ∃ fr : FormulaResult,
      build_formula [⟨"A", 3, 5, 60, none⟩, ⟨"B", 1, 5, 40, none⟩]
          (some 100) none = .ok fr ∧
        fr.compromise_alcohol_pct =
          ([⟨"A", 3, 5, 60, none⟩, ⟨"B", 1, 5, 40, none⟩].map
            (fun h : HerbEntry => h.alcohol_pct * (h.parts /
              (([⟨"A", 3, 5, 60, none⟩,
                 ⟨"B", 1, 5, 40, none⟩] : List HerbEntry).map
                  HerbEntry.parts).sum))).sum ∧
        fr.herbs =
          [⟨"A", 3, 5, 60, none⟩, ⟨"B", 1, 5, 40, none⟩].map
            (fun h : HerbEntry =>
              { name := h.name
                parts := h.parts
                weight_g := pyOrQ (some 100) 100 * (h.parts /
                  (([⟨"A", 3, 5, 60, none⟩,
                     ⟨"B", 1, 5, 40, none⟩] : List HerbEntry).map
                      HerbEntry.parts).sum) / h.ratio
                menstruum_ml := pyOrQ (some 100) 100 * (h.parts /
                  (([⟨"A", 3, 5, 60, none⟩,
                     ⟨"B", 1, 5, 40, none⟩] : List HerbEntry).map
                      HerbEntry.parts).sum)
                ratio := h.ratio
                alcohol_pct := h.alcohol_pct }) ∧
        (fr.herbs.map ScaledEntry.menstruum_ml).sum = pyOrQ (some 100) 100 :=
  (C4_build_formula [⟨"A", 3, 5, 60, none⟩, ⟨"B", 1, 5, 40, none⟩] 100
    (by simp) (by norm_num) (by norm_num)).1

/-- C10: `build_formula` performs no validation of extraction ratios.
For a non-empty list with positive total parts containing a zero-ratio
entry, the call raises the unhandled division-by-zero error (not an
invalid-ratio failure and not a warning-carrying result); with a
negative-ratio entry (other inputs well-formed and a positive target
volume) it succeeds, the result contains a negative `weight_g`, and the
warnings list is empty. -/
theorem C10_no_ratio_validation :
    (∀ (herbs : List HerbEntry) (tv bs : Option ℚ), herbs ≠ [] →
      0 < (herbs.map HerbEntry.parts).sum →
      (∃ h ∈ herbs, h.ratio = 0) →
      build_formula herbs tv bs = .error .zeroDivision) ∧
    (∀ (herbs : List HerbEntry) (tv : ℚ), herbs ≠ [] →
      (∀ h ∈ herbs, 0 < h.parts) → (∀ h ∈ herbs, h.ratio ≠ 0) →
      0 < tv → (∃ h ∈ herbs, h.ratio < 0) →
      ∃ fr : FormulaResult, build_formula herbs (some tv) none = .ok fr ∧
        (∃ s ∈ fr.herbs, s.weight_g < 0) ∧ fr.warnings = []) := by
  constructor
  · intro herbs tv bs hne hT hz
    have hemp : herbs.isEmpty = false := by
      cases herbs with
      | nil => exact absurd rfl hne
      | cons a as => rfl
    simp only [build_formula, hemp, Bool.false_eq_true, if_false,
      if_neg (not_le.2 hT), scaleHerbs_zero _ _ herbs hz]
  · intro herbs tv hne hparts hratio htv hneg
    have hT : 0 < (herbs.map HerbEntry.parts).sum := by
      apply List.sum_pos
      · intro x hx
        obtain ⟨h, hh, rfl⟩ := List.mem_map.1 hx
        exact hparts h hh
      · simpa using hne
    have heff : pyOrQ (some tv) (pyOrQ none 100) = tv := by
      simp [pyOrQ, ne_of_gt htv]
    refine ⟨_, build_formula_ok herbs tv hne hT hratio, ?_, rfl⟩
    obtain ⟨h, hh, hr0⟩ := hneg
    refine ⟨_, List.mem_map_of_mem _ hh, ?_⟩
    -- the scaled entry of the negative-ratio herb has negative weight
    show pyOrQ (some tv) (pyOrQ none 100) *
      (h.parts / (herbs.map HerbEntry.parts).sum) / h.ratio < 0
    rw [heff]
    apply div_neg_of_pos_of_neg _ hr0
    exact mul_pos htv (div_pos (hparts h hh) hT)

theorem stepLower_none {x : ℚ} {lo : Option DensityEntry} {a : DensityEntry}
    (h : stepLower x lo a = none) : lo = none ∧ ¬ a.ethanol_pct_vv < x := by
  cases lo with
  | none =>
    by_cases ha : a.ethanol_pct_vv < x
    · simp [stepLower, ha] at h
    · exact ⟨rfl, ha⟩
  | some l =>
    by_cases ha : a.ethanol_pct_vv < x
    · simp only [stepLower, if_pos ha] at h
      split at h <;> simp at h
    · simp only [stepLower, if_neg ha] at h
      simp at h

theorem stepLower_some_lt {x : ℚ} {lo : Option DensityEntry}
    {a : DensityEntry} (hlo : ∀ l, lo = some l → l.ethanol_pct_vv < x)
    {l : DensityEntry} (h : stepLower x lo a = some l) :
    l.ethanol_pct_vv < x := by
  by_cases ha : a.ethanol_pct_vv < x
  · cases lo with
    | none =>
      simp only [stepLower, if_pos ha, Option.some.injEq] at h
      subst h
      exact ha
    | some l₀ =>
      simp only [stepLower, if_pos ha] at h
      split at h <;> simp only [Option.some.injEq] at h <;> subst h
      · exact ha
      · exact hlo l₀ rfl
  · simp only [stepLower, if_neg ha] at h
    exact hlo l h

theorem stepLower_some_src {x : ℚ} {lo : Option DensityEntry}
    {a l : DensityEntry} (h : stepLower x lo a = some l) :
    l = a ∨ lo = some l := by
  by_cases ha : a.ethanol_pct_vv < x
  · cases lo with
    | none =>
      simp only [stepLower, if_pos ha, Option.some.injEq] at h
      exact Or.inl h.symm
    | some l₀ =>
      simp only [stepLower, if_pos ha] at h
      split at h <;> simp only [Option.some.injEq] at h <;> subst h
      · exact Or.inl rfl
      · exact Or.inr rfl
  · simp only [stepLower, if_neg ha] at h
    exact Or.inr h

theorem stepLower_of_lt {x : ℚ} (lo : Option DensityEntry)
    {a : DensityEntry} (ha : a.ethanol_pct_vv < x) :
    ∃ l₁, stepLower x lo a = some l₁ ∧
      a.ethanol_pct_vv ≤ l₁.ethanol_pct_vv := by
  cases lo with
  | none => exact ⟨a, by simp [stepLower, ha], le_refl _⟩
  | some l₀ =>
    by_cases hl : l₀.ethanol_pct_vv < a.ethanol_pct_vv
    · exact ⟨a, by simp [stepLower, ha, hl], le_refl _⟩
    · exact ⟨l₀, by simp [stepLower, ha, hl], not_lt.1 hl⟩

theorem stepLower_of_some {x : ℚ} {lo : Option DensityEntry}
    {a l₀ : DensityEntry} (h₀ : lo = some l₀) :
    ∃ l₁, stepLower x lo a = some l₁ ∧
      l₀.ethanol_pct_vv ≤ l₁.ethanol_pct_vv := by
  subst h₀
  by_cases ha : a.ethanol_pct_vv < x
  · by_cases hl : l₀.ethanol_pct_vv < a.ethanol_pct_vv
    · exact ⟨a, by simp [stepLower, ha, hl], le_of_lt hl⟩
    · exact ⟨l₀, by simp [stepLower, ha, hl], le_refl _⟩
  · exact ⟨l₀, by simp [stepLower, ha], le_refl _⟩

theorem stepUpper_none {x : ℚ} {hi : Option DensityEntry} {a : DensityEntry}
    (h : stepUpper x hi a = none) : hi = none ∧ ¬ x < a.ethanol_pct_vv := by
  cases hi with
  | none =>
    by_cases ha : x < a.ethanol_pct_vv
    · simp [stepUpper, ha] at h
    · exact ⟨rfl, ha⟩
  | some u =>
    by_cases ha : x < a.ethanol_pct_vv
    · simp only [stepUpper, if_pos ha] at h
      split at h <;> simp at h
    · simp only [stepUpper, if_neg ha] at h
      simp at h

theorem stepUpper_some_lt {x : ℚ} {hi : Option DensityEntry}
    {a : DensityEntry} (hhi : ∀ u, hi = some u → x < u.ethanol_pct_vv)
    {u : DensityEntry} (h : stepUpper x hi a = some u) :
    x < u.ethanol_pct_vv := by
  by_cases ha : x < a.ethanol_pct_vv
  · cases hi with
    | none =>
      simp only [stepUpper, if_pos ha, Option.some.injEq] at h
      subst h
      exact ha
    | some u₀ =>
      simp only [stepUpper, if_pos ha] at h
      split at h <;> simp only [Option.some.injEq] at h <;> subst h
      · exact ha
      · exact hhi u₀ rfl
  · simp only [stepUpper, if_neg ha] at h
    exact hhi u h

theorem stepUpper_some_src {x : ℚ} {hi : Option DensityEntry}
    {a u : DensityEntry} (h : stepUpper x hi a = some u) :
    u = a ∨ hi = some u := by
  by_cases ha : x < a.ethanol_pct_vv
  · cases hi with
    | none =>
      simp only [stepUpper, if_pos ha, Option.some.injEq] at h
      exact Or.inl h.symm
    | some u₀ =>
      simp only [stepUpper, if_pos ha] at h
      split at h <;> simp only [Option.some.injEq] at h <;> subst h
      · exact Or.inl rfl
      · exact Or.inr rfl
  · simp only [stepUpper, if_neg ha] at h
    exact Or.inr h

theorem stepUpper_of_lt {x : ℚ} (hi : Option DensityEntry)
    {a : DensityEntry} (ha : x < a.ethanol_pct_vv) :
    ∃ u₁, stepUpper x hi a = some u₁ ∧
      u₁.ethanol_pct_vv ≤ a.ethanol_pct_vv := by
  cases hi with
  | none => exact ⟨a, by simp [stepUpper, ha], le_refl _⟩
  | some u₀ =>
    by_cases hu : a.ethanol_pct_vv < u₀.ethanol_pct_vv
    · exact ⟨a, by simp [stepUpper, ha, hu], le_refl _⟩
    · exact ⟨u₀, by simp [stepUpper, ha, hu], not_lt.1 hu⟩

theorem stepUpper_of_some {x : ℚ} {hi : Option DensityEntry}
    {a u₀ : DensityEntry} (h₀ : hi = some u₀) :
    ∃ u₁, stepUpper x hi a = some u₁ ∧
      u₁.ethanol_pct_vv ≤ u₀.ethanol_pct_vv := by
  subst h₀
  by_cases ha : x < a.ethanol_pct_vv
  · by_cases hu : a.ethanol_pct_vv < u₀.ethanol_pct_vv
    · exact ⟨a, by simp [stepUpper, ha, hu], le_of_lt hu⟩
    · exact ⟨u₀, by simp [stepUpper, ha, hu], le_refl _⟩
  · exact ⟨u₀, by simp [stepUpper, ha], le_refl _⟩

/-- The accumulated `lower` candidate is exactly the nearest sample
strictly below the query: characterization of the fold of `stepLower`. -/
theorem foldl_stepLower_spec (x : ℚ) :
    ∀ (table : List DensityEntry) (lo : Option DensityEntry),
    (∀ l, lo = some l → l.ethanol_pct_vv < x) →
    (table.foldl (stepLower x) lo = none →
      lo = none ∧ ∀ e ∈ table, ¬ e.ethanol_pct_vv < x) ∧
    (∀ l, table.foldl (stepLower x) lo = some l →
      l.ethanol_pct_vv < x ∧ (l ∈ table ∨ lo = some l) ∧
      (∀ e ∈ table, e.ethanol_pct_vv < x →
        e.ethanol_pct_vv ≤ l.ethanol_pct_vv) ∧
      (∀ l₀, lo = some l₀ → l₀.ethanol_pct_vv ≤ l.ethanol_pct_vv)) := by
  intro table
  induction table with
  | nil =>
    intro lo hlo
    constructor
    · intro h
      simp only [List.foldl_nil] at h
      exact ⟨h, by simp⟩
    · intro l hl
      simp only [List.foldl_nil] at hl
      refine ⟨hlo l hl, Or.inr hl, by simp, ?_⟩
      intro l₀ h₀
      rw [h₀] at hl
      simp only [Option.some.injEq] at hl
      subst hl
      exact le_refl _
  | cons a t ih =>
    intro lo hlo
    have hstep : ∀ l, stepLower x lo a = some l → l.ethanol_pct_vv < x :=
      fun l hl => stepLower_some_lt hlo hl
    obtain ⟨ihn, ihs⟩ := ih (stepLower x lo a) hstep
    constructor
    · intro h
      simp only [List.foldl_cons] at h
      obtain ⟨hstep_none, hrest⟩ := ihn h
      obtain ⟨hlonone, hna⟩ := stepLower_none hstep_none
      refine ⟨hlonone, ?_⟩
      intro e he
      rcases List.mem_cons.1 he with rfl | het
      · exact hna
      · exact hrest e het
    · intro l hl
      simp only [List.foldl_cons] at hl
      obtain ⟨hlt, hsrc, hbound, hmono⟩ := ihs l hl
      refine ⟨hlt, ?_, ?_, ?_⟩
      · rcases hsrc with hmem | hstep_eq
        · exact Or.inl (List.mem_cons_of_mem a hmem)
        · rcases stepLower_some_src hstep_eq with rfl | hlo_eq
          · exact Or.inl (List.mem_cons_self l t)
          · exact Or.inr hlo_eq
      · intro e he helt
        rcases List.mem_cons.1 he with rfl | het
        · obtain ⟨l₁, hl₁, hal₁⟩ := stepLower_of_lt lo helt
          exact le_trans hal₁ (hmono l₁ hl₁)
        · exact hbound e het helt
      · intro l₀ h₀
        obtain ⟨l₁, hl₁, h01⟩ := @stepLower_of_some x lo a l₀ h₀
        exact le_trans h01 (hmono l₁ hl₁)

/-- The accumulated `upper` candidate is exactly the nearest sample
strictly above the query: characterization of the fold of `stepUpper`. -/
theorem foldl_stepUpper_spec (x : ℚ) :
    ∀ (table : List DensityEntry) (hi : Option DensityEntry),
    (∀ u, hi = some u → x < u.ethanol_pct_vv) →
    (table.foldl (stepUpper x) hi = none →
      hi = none ∧ ∀ e ∈ table, ¬ x < e.ethanol_pct_vv) ∧
    (∀ u, table.foldl (stepUpper x) hi = some u →
      x < u.ethanol_pct_vv ∧ (u ∈ table ∨ hi = some u) ∧
      (∀ e ∈ table, x < e.ethanol_pct_vv →
        u.ethanol_pct_vv ≤ e.ethanol_pct_vv) ∧
      (∀ u₀, hi = some u₀ → u.ethanol_pct_vv ≤ u₀.ethanol_pct_vv)) := by
  intro table
  induction table with
  | nil =>
    intro hi hhi
    constructor
    · intro h
      simp only [List.foldl_nil] at h
      exact ⟨h, by simp⟩
    · intro u hu
      simp only [List.foldl_nil] at hu
      refine ⟨hhi u hu, Or.inr hu, by simp, ?_⟩
      intro u₀ h₀
      rw [h₀] at hu
      simp only [Option.some.injEq] at hu
      subst hu
      exact le_refl _
  | cons a t ih =>
    intro hi hhi
    have hstep : ∀ u, stepUpper x hi a = some u → x < u.ethanol_pct_vv :=
      fun u hu => stepUpper_some_lt hhi hu
    obtain ⟨ihn, ihs⟩ := ih (stepUpper x hi a) hstep
    constructor
    · intro h
      simp only [List.foldl_cons] at h
      obtain ⟨hstep_none, hrest⟩ := ihn h
      obtain ⟨hhinone, hna⟩ := stepUpper_none hstep_none
      refine ⟨hhinone, ?_⟩
      intro e he
      rcases List.mem_cons.1 he with rfl | het
      · exact hna
      · exact hrest e het
    · intro u hu
      simp only [List.foldl_cons] at hu
      obtain ⟨hlt, hsrc, hbound, hmono⟩ := ihs u hu
      refine ⟨hlt, ?_, ?_, ?_⟩
      · rcases hsrc with hmem | hstep_eq
        · exact Or.inl (List.mem_cons_of_mem a hmem)
        · rcases stepUpper_some_src hstep_eq with rfl | hhi_eq
          · exact Or.inl (List.mem_cons_self u t)
          · exact Or.inr hhi_eq
      · intro e he helt
        rcases List.mem_cons.1 he with rfl | het
        · obtain ⟨u₁, hu₁, hau₁⟩ := stepUpper_of_lt hi helt
          exact le_trans (hmono u₁ hu₁) hau₁
        · exact hbound e het helt
      · intro u₀ h₀
        obtain ⟨u₁, hu₁, h01⟩ := @stepUpper_of_some x hi a u₀ h₀
        exact le_trans (hmono u₁ hu₁) h01

/-- With no exact match in the table, the scan returns no early hit and
its brackets are the folds of the two step functions. -/
theorem densityScan_eq_foldl (x : ℚ) :
    ∀ (table : List DensityEntry) (lo hi : Option DensityEntry),
    (∀ e ∈ table, e.ethanol_pct_vv ≠ x) →
    densityScan x table lo hi =
      (none, table.foldl (stepLower x) lo, table.foldl (stepUpper x) hi) := by
  intro table
  induction table with
  | nil => intro lo hi _; rfl
  | cons a t ih =>
    intro lo hi hnx
    have hax : ¬ a.ethanol_pct_vv = x := hnx a (by simp)
    simp only [densityScan, if_neg hax, List.foldl_cons]
    exact ih _ _ (fun e he => hnx e (by simp [he]))

/-- With pairwise-distinct sample points, an exact match is returned
with its table density regardless of the accumulators. -/
theorem densityScan_exact (x : ℚ) :
    ∀ (table : List DensityEntry),
    table.Pairwise (fun a b => a.ethanol_pct_vv ≠ b.ethanol_pct_vv) →
    ∀ e ∈ table, e.ethanol_pct_vv = x →
    ∀ lo hi, (densityScan x table lo hi).1 = some e.density_g_ml := by
  intro table
  induction table with
  | nil => intro _ e he; cases he
  | cons a t ih =>
    intro hdist e he hex lo hi
    rcases List.mem_cons.1 he with rfl | het
    · simp [densityScan, hex]
    · have hax : ¬ a.ethanol_pct_vv = x := fun h =>
        (List.pairwise_cons.1 hdist).1 e het (h.trans hex.symm)
      simp only [densityScan, if_neg hax]
      exact ih (List.pairwise_cons.1 hdist).2 e het hex _ _

/-- In range, `lookup_ethanol_density` always succeeds. -/
theorem lookup_ok_of_inrange (table : List DensityEntry) (x : ℚ)
    (h0 : 0 ≤ x) (h1 : x ≤ 100) :
    ∃ d, lookup_ethanol_density table x = .ok d := by
  have hr : ¬ (x < 0 ∨ 100 < x) := by
    push_neg
    exact ⟨h0, h1⟩
  unfold lookup_ethanol_density
  rw [if_neg hr]
  split
  · exact ⟨_, rfl⟩
  · split <;> exact ⟨_, rfl⟩

/-- `lookup_ethanol_density` fails exactly on an out-of-range query, and
the error is the out-of-range one. -/
theorem lookup_error_iff (table : List DensityEntry) (x : ℚ) :
    lookup_ethanol_density table x = .error .outOfRange ↔
      (x < 0 ∨ 100 < x) := by
  constructor
  · intro h
    by_contra hr
    push_neg at hr
    obtain ⟨d, hd⟩ := lookup_ok_of_inrange table x hr.1 hr.2
    rw [h] at hd
    cases hd
  · intro h
    unfold lookup_ethanol_density
    rw [if_pos h]

/-- C6: `lookup_ethanol_density` fails exactly when the percentage is
outside [0, 100]; in range it returns the table density at an exact
match, linearly interpolates between the nearest bracketing samples when
both exist, returns the single available side's density when only one
side exists (and the midpoint of two evenly spaced brackets gets their
arithmetic mean); on an empty table it follows the two-point linear
model between water (1.000 at 0) and pure ethanol (0.7893 at 100). -/
theorem C6_lookup_density (table : List DensityEntry) (x : ℚ)
    (hdist : table.Pairwise (fun a b => a.ethanol_pct_vv ≠ b.ethanol_pct_vv))
    (hx0 : 0 ≤ x) (hx1 : x ≤ 100) :
    (∀ y : ℚ, lookup_ethanol_density table y = .error .outOfRange ↔
      (y < 0 ∨ 100 < y)) ∧
    (∃ d, lookup_ethanol_density table x = .ok d) ∧
    (∀ e ∈ table, e.ethanol_pct_vv = x →
      lookup_ethanol_density table x = .ok e.density_g_ml) ∧
    ((∀ e ∈ table, e.ethanol_pct_vv ≠ x) →
      ((∃ e ∈ table, e.ethanol_pct_vv < x) →
        (∃ e ∈ table, x < e.ethanol_pct_vv) →
        ∃ l u, l ∈ table ∧ u ∈ table ∧
          l.ethanol_pct_vv < x ∧ x < u.ethanol_pct_vv ∧
          (∀ e ∈ table, e.ethanol_pct_vv < x →
            e.ethanol_pct_vv ≤ l.ethanol_pct_vv) ∧
          (∀ e ∈ table, x < e.ethanol_pct_vv →
            u.ethanol_pct_vv ≤ e.ethanol_pct_vv) ∧
          lookup_ethanol_density table x = .ok (l.density_g_ml +
            (x - l.ethanol_pct_vv) /
                (u.ethanol_pct_vv - l.ethanol_pct_vv) *
              (u.density_g_ml - l.density_g_ml)) ∧
          (u.ethanol_pct_vv - x = x - l.ethanol_pct_vv →
            lookup_ethanol_density table x =
              .ok ((l.density_g_ml + u.density_g_ml) / 2))) ∧
      ((∃ e ∈ table, e.ethanol_pct_vv < x) →
        (∀ e ∈ table, ¬ x < e.ethanol_pct_vv) →
        ∃ l ∈ table, l.ethanol_pct_vv < x ∧
          (∀ e ∈ table, e.ethanol_pct_vv < x →
            e.ethanol_pct_vv ≤ l.ethanol_pct_vv) ∧
          lookup_ethanol_density table x = .ok l.density_g_ml) ∧
      ((∀ e ∈ table, ¬ e.ethanol_pct_vv < x) →
        (∃ e ∈ table, x < e.ethanol_pct_vv) →
        ∃ u ∈ table, x < u.ethanol_pct_vv ∧
          (∀ e ∈ table, x < e.ethanol_pct_vv →
            u.ethanol_pct_vv ≤ e.ethanol_pct_vv) ∧
          lookup_ethanol_density table x = .ok u.density_g_ml)) ∧
    (∀ y : ℚ, 0 ≤ y → y ≤ 100 →
      lookup_ethanol_density [] y =
        .ok (1 - (y / 100) * (1 - 7893 / 10000))) ∧
    lookup_ethanol_density [] 0 = .ok 1 ∧
    lookup_ethanol_density [] 100 = .ok (7893 / 10000) := by
  have hr : ¬ (x < 0 ∨ 100 < x) := by
    push_neg
    exact ⟨hx0, hx1⟩
  refine ⟨fun y => lookup_error_iff table y,
    lookup_ok_of_inrange table x hx0 hx1, ?_, ?_, ?_, ?_, ?_⟩
  · -- exact match
    intro e he hex
    have hemp : table.isEmpty = false := by
      cases table with
      | nil => cases he
      | cons a t => rfl
    have h1 := densityScan_exact x table hdist e he hex none none
    rcases hds : densityScan x table none none with ⟨f, lo, hi⟩
    rw [hds] at h1
    simp only at h1
    subst h1
    simp only [lookup_ethanol_density, if_neg hr, hemp, Bool.false_eq_true,
      if_false, hds]
  · -- no exact match: the three bracket configurations
    intro hnx
    have hds := densityScan_eq_foldl x table none none hnx
    obtain ⟨hLn, hLs⟩ := foldl_stepLower_spec x table none (by simp)
    obtain ⟨hUn, hUs⟩ := foldl_stepUpper_spec x table none (by simp)
    refine ⟨?_, ?_, ?_⟩
    · rintro ⟨eb, hbmem, hblt⟩ ⟨ea, hamem, halt⟩
      have hemp : table.isEmpty = false := by
        cases table with
        | nil => cases hbmem
        | cons a t => rfl
      rcases hL : table.foldl (stepLower x) none with _ | l
      · exact absurd hblt ((hLn hL).2 eb hbmem)
      rcases hU : table.foldl (stepUpper x) none with _ | u
      · exact absurd halt ((hUn hU).2 ea hamem)
      obtain ⟨hllt, hlsrc, hlbound, _⟩ := hLs l hL
      obtain ⟨hult, husrc, hubound, _⟩ := hUs u hU
      have hlmem : l ∈ table := by
        rcases hlsrc with h | h
        · exact h
        · simp at h
      have humem : u ∈ table := by
        rcases husrc with h | h
        · exact h
        · simp at h
      have hres : lookup_ethanol_density table x = .ok (l.density_g_ml +
          (x - l.ethanol_pct_vv) / (u.ethanol_pct_vv - l.ethanol_pct_vv) *
            (u.density_g_ml - l.density_g_ml)) := by
        simp only [lookup_ethanol_density, if_neg hr, hemp,
          Bool.false_eq_true, if_false, hds, hL, hU]
      refine ⟨l, u, hlmem, humem, hllt, hult, hlbound, hubound, hres, ?_⟩
      intro hmid
      rw [hres]
      congr 1
      have hxl : 0 < x - l.ethanol_pct_vv := sub_pos.2 hllt
      have h2 : u.ethanol_pct_vv - l.ethanol_pct_vv =
          2 * (x - l.ethanol_pct_vv) := by linarith
      rw [h2]
      field_simp
      ring
    · rintro ⟨eb, hbmem, hblt⟩ hnu
      have hemp : table.isEmpty = false := by
        cases table with
        | nil => cases hbmem
        | cons a t => rfl
      rcases hL : table.foldl (stepLower x) none with _ | l
      · exact absurd hblt ((hLn hL).2 eb hbmem)
      have hU : table.foldl (stepUpper x) none = none := by
        rcases hU' : table.foldl (stepUpper x) none with _ | u
        · rfl
        · obtain ⟨hult, husrc, _, _⟩ := hUs u hU'
          rcases husrc with h | h
          · exact absurd hult (hnu u h)
          · simp at h
      obtain ⟨hllt, hlsrc, hlbound, _⟩ := hLs l hL
      have hlmem : l ∈ table := by
        rcases hlsrc with h | h
        · exact h
        · simp at h
      refine ⟨l, hlmem, hllt, hlbound, ?_⟩
      simp only [lookup_ethanol_density, if_neg hr, hemp,
        Bool.false_eq_true, if_false, hds, hL, hU]
    · intro hnb
      rintro ⟨ea, hamem, halt⟩
      have hemp : table.isEmpty = false := by
        cases table with
        | nil => cases hamem
        | cons a t => rfl
      rcases hU : table.foldl (stepUpper x) none with _ | u
      · exact absurd halt ((hUn hU).2 ea hamem)
      have hL : table.foldl (stepLower x) none = none := by
        rcases hL' : table.foldl (stepLower x) none with _ | l
        · rfl
        · obtain ⟨hllt, hlsrc, _, _⟩ := hLs l hL'
          rcases hlsrc with h | h
          · exact absurd hllt (hnb l h)
          · simp at h
      obtain ⟨hult, husrc, hubound, _⟩ := hUs u hU
      have humem : u ∈ table := by
        rcases husrc with h | h
        · exact h
        · simp at h
      refine ⟨u, humem, hult, hubound, ?_⟩
      simp only [lookup_ethanol_density, if_neg hr, hemp,
        Bool.false_eq_true, if_false, hds, hL, hU]
  · -- empty-table fallback, general point
    intro y h0 h1
    have hry : ¬ (y < 0 ∨ 100 < y) := by
      push_neg
      exact ⟨h0, h1⟩
    unfold lookup_ethanol_density
    rw [if_neg hry]
    rfl
  · norm_num [lookup_ethanol_density]
  · norm_num [lookup_ethanol_density]

/-- Witness for C6 at a concrete query: applying the characterization on
the empty table at 50 percent yields the documented endpoint values of
the linear fallback. -/
theorem C6_witness :
    lookup_ethanol_density [] 0 = .ok 1 ∧
    lookup_ethanol_density [] 100 = .ok (7893 / 10000) := by
  have h := C6_lookup_density [] 50 (by simp) (by norm_num) (by norm_num)
  exact ⟨h.2.2.2.2.2.1, h.2.2.2.2.2.2⟩

/-- C9 counterexample: with both convention codes equal to the
unrecognized string "xx", the claim requires a failure, but the
identity shortcut runs first and returns the value unchanged. -/
theorem C9_counterexample :
    ("xx" ≠ "vv" ∧ "xx" ≠ "wv" ∧ "xx" ≠ "ww") ∧
      convert_percentage [] 5 "xx" "xx" "ethanol" none = .ok 5 := by
  exact ⟨⟨by decide, by decide, by decide⟩, rfl⟩

/-- C9 (amended: the identity shortcut takes precedence): when the two
convention codes differ and either is not one of vv, wv, ww, the call
fails; when the codes are equal — even if unrecognized — it returns the
value unchanged. -/
theorem C9_percentage_convention (table : List DensityEntry) (v : ℚ)
    (fc tc sub : String) (ref : Option ℚ) (hne : fc ≠ tc)
    (hbad : (fc ≠ "vv" ∧ fc ≠ "wv" ∧ fc ≠ "ww") ∨
      (tc ≠ "vv" ∧ tc ≠ "wv" ∧ tc ≠ "ww")) :
    (∃ e, convert_percentage table v fc tc sub ref = .error e) ∧
    (∀ (table2 : List DensityEntry) (v2 : ℚ) (c sub2 : String)
      (ref2 : Option ℚ),
      convert_percentage table2 v2 c c sub2 ref2 = .ok v2) := by
  constructor
  · rcases hmd : (if sub = "ethanol" then
        lookup_ethanol_density table (ref.getD v)
      else (.ok 1 : Except HerbErr ℚ)) with e | md
    · exact ⟨e, by simp only [convert_percentage, if_neg hne, hmd]⟩
    · rcases hbad with ⟨h1, h2, h3⟩ | ⟨h1, h2, h3⟩
      · exact ⟨.unknownConvention fc, by simp only [convert_percentage,
          if_neg hne, hmd, if_neg h1, if_neg h2, if_neg h3]⟩
      · by_cases hf1 : fc = "vv"
        · exact ⟨.unknownConvention tc, by simp only [convert_percentage,
            if_neg hne, hmd, if_pos hf1, if_neg h1, if_neg h2, if_neg h3]⟩
        · by_cases hf2 : fc = "wv"
          · exact ⟨.unknownConvention tc, by simp only [convert_percentage,
              if_neg hne, hmd, if_neg hf1, if_pos hf2, if_neg h1,
              if_neg h2, if_neg h3]⟩
          · by_cases hf3 : fc = "ww"
            · exact ⟨.unknownConvention tc, by simp only [convert_percentage,
                if_neg hne, hmd, if_neg hf1, if_neg hf2, if_pos hf3,
                if_neg h1, if_neg h2, if_neg h3]⟩
            · exact ⟨.unknownConvention fc, by simp only [convert_percentage,
                if_neg hne, hmd, if_neg hf1, if_neg hf2, if_neg hf3]⟩
  · intro table2 v2 c sub2 ref2
    simp [convert_percentage]

/-- Witness for C9: converting from the unknown code "xx" to vv fails,
and an equal pair of unrecognized codes returns the value unchanged. -/
theorem C9_witness :
    (∃ e, convert_percentage [] 7 "xx" "vv" "ethanol" none = .error e) ∧
      convert_percentage [] 7 "qq" "qq" "water" none = .ok 7 := by
  have h := C9_percentage_convention [] 7 "xx" "vv" "ethanol" none
    (by decide) (Or.inl ⟨by decide, by decide, by decide⟩)
  exact ⟨h.1, h.2 [] 7 "qq" "water" none⟩

/-- Witness for C10: a single zero-ratio herb raises the
division-by-zero error, and a single negative-ratio herb yields a
negative weight with no warning. -/
theorem C10_witness :
    build_formula [⟨"A", 1, 0, 45, none⟩] (some 100) none =
        .error .zeroDivision ∧
      ∃ fr : FormulaResult,
        build_formula [⟨"B", 1, -5, 45, none⟩] (some 100) none = .ok fr ∧
          (∃ s ∈ fr.herbs, s.weight_g < 0) ∧ fr.warnings = [] :=
  ⟨C10_no_ratio_validation.1 [⟨"A", 1, 0, 45, none⟩] (some 100) none
      (by simp) (by norm_num) ⟨⟨"A", 1, 0, 45, none⟩, by simp, rfl⟩,
   C10_no_ratio_validation.2 [⟨"B", 1, -5, 45, none⟩] 100 (by simp)
      (by norm_num) (by norm_num) (by norm_num)
      ⟨⟨"B", 1, -5, 45, none⟩, by simp, by norm_num⟩⟩

end HerbCalc
